import Mathlib

/-!
Shallow embedding of the cache-and-render pipeline of the OG image
generator (src/src/server.ts and src/src/utils/image-generator.ts):
the two-tier image cache (RAM Map plus on-disk PNG files), the cache key
derivation, the periodic cleanup sweep, the cache management endpoints
and the /og request handler. Times are in milliseconds (Date.now), TTLs
are configured in seconds and compared against age in milliseconds.
-/

namespace OgServer

/-- Image bytes (the Buffer returned by the renderer). -/
abbrev Buffer := List Nat

/-- RamCacheEntry of server.ts: bytes plus insertion timestamp (ms). -/
structure RamCacheEntry where
  buffer : Buffer
  timestamp : Int
  deriving Repr, DecidableEq

/-- One file of the cache directory: raw bytes plus mtime (ms). -/
structure DiskFile where
  buffer : Buffer
  mtime : Int
  deriving Repr, DecidableEq

/-- Insertion-ordered association list with unique keys, modelling a JS
Map (the RAM tier) or the cache directory (the disk tier, keyed by the
sanitized file name). -/
abbrev StrMap (α : Type) := List (String × α)

/-- Map lookup (Map.get / fs.stat on one file name). -/
def map_lookup {α : Type} (m : StrMap α) (k : String) : Option α :=
  match m with
  | [] => none
  | (k2, v) :: rest => if k2 = k then some v else map_lookup rest k

/-- Map.set: replace in place when the key is present, else append. -/
def map_set {α : Type} (m : StrMap α) (k : String) (v : α) : StrMap α :=
  match m with
  | [] => [(k, v)]
  | (k2, v2) :: rest =>
    if k2 = k then (k, v) :: rest else (k2, v2) :: map_set rest k v

/-- Map.delete / fs.unlink: remove every binding of the key. -/
def map_delete {α : Type} (m : StrMap α) (k : String) : StrMap α :=
  match m with
  | [] => []
  | (k2, v) :: rest =>
    if k2 = k then map_delete rest k else (k2, v) :: map_delete rest k

/-- The two cache tiers: ram_cache and the cache directory. -/
structure CacheState where
  ram : StrMap RamCacheEntry
  disk : StrMap DiskFile
  deriving Repr, DecidableEq

/-- CACHE_TTL is configured in seconds; ages are compared against
CACHE_TTL * 1000 milliseconds. -/
def ttl_ms (ttl_s : Nat) : Int := (ttl_s : Int) * 1000

/-- Characters kept by the file-name regex [a-zA-Z0-9\-_]. -/
def is_filename_safe (c : Char) : Bool :=
  c.isAlpha || c.isDigit || c == '-' || c == '_'

/-- cache_key.replace of every character outside [a-zA-Z0-9\-_] by an
underscore. -/
def sanitize_key (k : String) : String :=
  String.mk (k.data.map (fun c => if is_filename_safe c then c else '_'))

/-- File name used by the disk tier for a cache key. -/
def disk_file_name (k : String) : String := sanitize_key k ++ ".png"

/-- Which tier served a hit. -/
inductive Source
  | ram
  | disk
  deriving Repr, DecidableEq

/-- get_from_disk_cache: stat the sanitized file; unlink and miss when
its age exceeds the TTL; otherwise return its bytes. Returns the
possibly updated disk tier alongside the result. -/
def get_from_disk_cache (ttl_s : Nat) (now : Int) (key : String)
    (disk : StrMap DiskFile) : Option Buffer × StrMap DiskFile :=
  match map_lookup disk (disk_file_name key) with
  | none => (none, disk)
  | some f =>
    if now - f.mtime > ttl_ms ttl_s then
      (none, map_delete disk (disk_file_name key))
    else (some f.buffer, disk)

/-- Disk-tier phase of get_cached_image: on a disk hit, promote the
bytes into the RAM tier with timestamp reset to now. The Bool records
that the disk tier was accessed. -/
def disk_step (ttl_s : Nat) (now : Int) (key : String)
    (ram : StrMap RamCacheEntry) (disk : StrMap DiskFile) :
    Option (Buffer × Source) × CacheState × Bool :=
  match get_from_disk_cache ttl_s now key disk with
  | (some buf, disk2) =>
    (some (buf, Source.disk), ⟨map_set ram key ⟨buf, now⟩, disk2⟩, true)
  | (none, disk2) => (none, ⟨ram, disk2⟩, true)

/-- get_cached_image: serve a RAM entry younger than the TTL; delete an
aged RAM entry and fall through to the disk tier; promote disk hits.
Returns the result, the updated state, and whether disk was accessed. -/
def get_cached_image (ttl_s : Nat) (now : Int) (key : String)
    (st : CacheState) : Option (Buffer × Source) × CacheState × Bool :=
  match map_lookup st.ram key with
  | some entry =>
    if now - entry.timestamp < ttl_ms ttl_s then
      (some (entry.buffer, Source.ram), st, false)
    else disk_step ttl_s now key (map_delete st.ram key) st.disk
  | none => disk_step ttl_s now key st.ram st.disk

/-- save_to_disk_cache: write the file, or on an injected I/O failure
leave the disk tier unchanged and log (second component true means an
error was logged); no exception escapes. -/
def save_to_disk_cache (now : Int) (key : String) (buffer : Buffer)
    (fail : Bool) (disk : StrMap DiskFile) : StrMap DiskFile × Bool :=
  if fail then (disk, true)
  else (map_set disk (disk_file_name key) ⟨buffer, now⟩, false)

/-- cache_image: set the RAM entry synchronously, then schedule the disk
write; a disk failure is only logged. -/
def cache_image (now : Int) (key : String) (buffer : Buffer)
    (disk_fail : Bool) (st : CacheState) : CacheState × Bool :=
  let save := save_to_disk_cache now key buffer disk_fail st.disk
  (⟨map_set st.ram key ⟨buffer, now⟩, save.1⟩, save.2)

/-- Effective rendering parameters after validation and defaulting. -/
structure og_params where
  title : String
  author : String
  website : String
  theme : String
  deriving Repr, DecidableEq

/-- The cache key of the /og handler: the four parameter values joined
with single dashes. -/
def cache_key (p : og_params) : String :=
  p.title ++ "-" ++ p.author ++ "-" ++ p.website ++ "-" ++ p.theme

/-- Keep predicate of the expiry pass of cleanup_cache (entries strictly
older than the TTL are deleted). -/
def keep_entry (ttl_s : Nat) (now : Int) (p : String × RamCacheEntry) :
    Bool :=
  !(decide (now - p.2.timestamp > ttl_ms ttl_s))

/-- Stable insertion of an entry into a list sorted by timestamp. -/
def insert_by_ts (p : String × RamCacheEntry) :
    List (String × RamCacheEntry) → List (String × RamCacheEntry)
  | [] => [p]
  | q :: rest =>
    if p.2.timestamp < q.2.timestamp then p :: q :: rest
    else q :: insert_by_ts p rest

/-- Stable sort by timestamp, the effect of Array.sort with the
comparator (a, b) => a.timestamp - b.timestamp. -/
def sort_by_ts : List (String × RamCacheEntry) →
    List (String × RamCacheEntry)
  | [] => []
  | p :: rest => insert_by_ts p (sort_by_ts rest)

/-- cleanup_cache: drop expired RAM entries, then, when the tier still
exceeds MAX_RAM_CACHE_SIZE, delete the oldest-by-timestamp entries until
the size bound holds. -/
def cleanup_cache (ttl_s maxSize : Nat) (now : Int)
    (ram : StrMap RamCacheEntry) : StrMap RamCacheEntry :=
  let ram1 := ram.filter (keep_entry ttl_s now)
  if maxSize < ram1.length then
    ((sort_by_ts ram1).take (ram1.length - maxSize)).foldl
      (fun m p => map_delete m p.1) ram1
  else ram1

/-- DELETE /cache/:key — remove the key from the RAM map and unlink the
sanitized file; absence of either is not an error. Returns the state and
the found/removed booleans reported per tier. -/
def invalidate (key : String) (st : CacheState) :
    CacheState × Bool × Bool :=
  (⟨map_delete st.ram key, map_delete st.disk (disk_file_name key)⟩,
    (map_lookup st.ram key).isSome,
    (map_lookup st.disk (disk_file_name key)).isSome)

/-- Outcome of one renderer attempt. -/
abbrev RenderOutcome := Except String Buffer

/-- One invocation of image_generator.generate_image against an oracle
list of attempt outcomes; exactly one attempt is consumed. -/
def render_once (outcomes : List RenderOutcome) : RenderOutcome × Nat :=
  (outcomes.headD (Except.error "renderer unavailable"), 1)

/-- X-Cache-Status values of the /og handler. -/
inductive CacheStatus
  | hit_ram
  | hit_disk
  | miss
  deriving Repr, DecidableEq

/-- Response of the /og handler: an image, or the HTTP 500 JSON error
whose message field is filled only in development. -/
inductive OgResponse
  | image (bytes : Buffer) (status : CacheStatus)
  | server_error (message : Option String)
  deriving Repr, DecidableEq

/-- Status header for a cache hit. -/
def hit_status : Source → CacheStatus
  | Source.ram => CacheStatus.hit_ram
  | Source.disk => CacheStatus.hit_disk

/-- Cache-and-render tail of the /og handler: consult the hybrid cache;
on a miss invoke the renderer once and on success populate both tiers;
on a render failure return the 500 error, including the message only
when NODE_ENV is development. The Nat counts renderer attempts used. -/
def og_handler (env : String) (ttl_s : Nat) (now : Int) (key : String)
    (outcomes : List RenderOutcome) (disk_fail : Bool) (st : CacheState) :
    OgResponse × CacheState × Nat :=
  let g := get_cached_image ttl_s now key st
  match g.1 with
  | some (buf, src) => (OgResponse.image buf (hit_status src), g.2.1, 0)
  | none =>
    match render_once outcomes with
    | (Except.ok b, n) =>
      (OgResponse.image b CacheStatus.miss,
        (cache_image now key b disk_fail g.2.1).1, n)
    | (Except.error e, n) =>
      (OgResponse.server_error
        (if env = "development" then some e else none), g.2.1, n)

/-- Progress of one /og request in the concurrency model: it has not run
yet, it has observed a cache miss (and is about to render), or it has
finished with the returned bytes. -/
inductive RStatus
  | notStarted
  | checkedMiss
  | done (bytes : Buffer)
  deriving Repr, DecidableEq

/-- Shared state of the concurrency model: the cache tiers, the number
of renderer invocations, and the per-request progress. -/
structure Sys where
  cache : CacheState
  renders : Nat
  reqs : List RStatus
  deriving Repr, DecidableEq

/-- One atomic step of request i for a fixed key: either the cache
check, or (after an observed miss) the render plus cache fill. The
renderer deterministically yields rb. This mirrors the /og handler,
whose awaits allow other requests to interleave between the two
steps. -/
def req_step (ttl_s : Nat) (now : Int) (key : String) (rb : Buffer)
    (s : Sys) (i : Nat) : Sys :=
  match s.reqs[i]? with
  | some RStatus.notStarted =>
    match get_cached_image ttl_s now key s.cache with
    | (some (buf, _), c2, _) =>
      { s with cache := c2, reqs := s.reqs.set i (RStatus.done buf) }
    | (none, c2, _) =>
      { s with cache := c2, reqs := s.reqs.set i RStatus.checkedMiss }
  | some RStatus.checkedMiss =>
    { s with cache := (cache_image now key rb false s.cache).1,
             renders := s.renders + 1,
             reqs := s.reqs.set i (RStatus.done rb) }
  | _ => s

/-- Run a schedule (a list of request indices, each occurrence executing
one atomic step of that request). -/
def run_schedule (ttl_s : Nat) (now : Int) (key : String) (rb : Buffer)
    (sched : List Nat) (s : Sys) : Sys :=
  sched.foldl (req_step ttl_s now key rb) s

/-- Initial system: empty tiers, no renders, m requests not started. -/
def init_sys (m : Nat) : Sys :=
  ⟨⟨[], []⟩, 0, List.replicate m RStatus.notStarted⟩

/-- Fully sequential schedule: each request runs both of its steps to
completion before the next request starts. -/
def seq_schedule (m : Nat) : List Nat :=
  (List.range m).flatMap (fun i => [i, i])

theorem map_lookup_set_eq {α : Type} (m : StrMap α) (k : String) (v : α) :
    map_lookup (map_set m k v) k = some v := by
  induction m with
  | nil => simp [map_set, map_lookup]
  | cons p rest ih =>
    obtain ⟨k2, v2⟩ := p
    by_cases h : k2 = k
    · simp [map_set, map_lookup, h]
    · simp [map_set, map_lookup, h, ih]

theorem map_lookup_delete {α : Type} (m : StrMap α) (k : String) :
    map_lookup (map_delete m k) k = none := by
  induction m with
  | nil => simp [map_delete, map_lookup]
  | cons p rest ih =>
    obtain ⟨k2, v⟩ := p
    by_cases h : k2 = k
    · simp [map_delete, h, ih]
    · simp [map_delete, map_lookup, h, ih]

theorem map_delete_eq_self {α : Type} (m : StrMap α) (k : String)
    (h : map_lookup m k = none) : map_delete m k = m := by
  induction m with
  | nil => simp [map_delete]
  | cons p rest ih =>
    obtain ⟨k2, v⟩ := p
    by_cases hk : k2 = k
    · simp [map_lookup, hk] at h
    · simp only [map_lookup, if_neg hk] at h
      simp [map_delete, hk, ih h]

theorem map_delete_idem {α : Type} (m : StrMap α) (k : String) :
    map_delete (map_delete m k) k = map_delete m k :=
  map_delete_eq_self _ _ (map_lookup_delete m k)

theorem disk_step_no_ram (ttl_s : Nat) (now : Int) (key : String)
    (ram : StrMap RamCacheEntry) (disk : StrMap DiskFile)
    (b : Buffer) (st : CacheState) (d : Bool) :
    disk_step ttl_s now key ram disk ≠ (some (b, Source.ram), st, d) := by
  rcases hg : get_from_disk_cache ttl_s now key disk with ⟨o, disk2⟩
  rcases o with _ | buf <;> simp [disk_step, hg]

theorem get_from_disk_cache_some (ttl_s : Nat) (now : Int) (key : String)
    (disk disk2 : StrMap DiskFile) (buf : Buffer)
    (h : get_from_disk_cache ttl_s now key disk = (some buf, disk2)) :
    ∃ f, map_lookup disk (disk_file_name key) = some f ∧ f.buffer = buf
      ∧ ¬(now - f.mtime > ttl_ms ttl_s) := by
  rcases hl : map_lookup disk (disk_file_name key) with _ | f
  · simp [get_from_disk_cache, hl] at h
  · by_cases hage : now - f.mtime > ttl_ms ttl_s
    · simp [get_from_disk_cache, hl, hage] at h
    · simp only [get_from_disk_cache, hl, if_neg hage] at h
      have hb : f.buffer = buf := by
        have h1 := congrArg (fun x => x.1) h
        simpa using h1
      exact ⟨f, rfl, hb, hage⟩

theorem disk_step_disk_hit (ttl_s : Nat) (now : Int) (key : String)
    (ram : StrMap RamCacheEntry) (disk : StrMap DiskFile)
    (b2 : Buffer) (st2 : CacheState) (d : Bool)
    (h : disk_step ttl_s now key ram disk = (some (b2, Source.disk), st2, d)) :
    ∃ f, map_lookup disk (disk_file_name key) = some f ∧ f.buffer = b2
      ∧ ¬(now - f.mtime > ttl_ms ttl_s) := by
  rcases hg : get_from_disk_cache ttl_s now key disk with ⟨o, disk2⟩
  rcases o with _ | buf
  · simp [disk_step, hg] at h
  · simp only [disk_step, hg] at h
    have hb : buf = b2 := by
      have h1 := congrArg (fun x => x.1) h
      simpa using h1
    subst hb
    exact get_from_disk_cache_some _ _ _ _ _ _ hg

theorem getElem?_set_of_some {α : Type} (l : List α) (i : Nat) (x y : α)
    (h : l[i]? = some x) : (l.set i y)[i]? = some y := by
  induction l generalizing i with
  | nil => simp at h
  | cons a t ih =>
    cases i with
    | zero => simp
    | succ j =>
      simp only [List.getElem?_cons_succ] at h
      simpa only [List.set_cons_succ, List.getElem?_cons_succ] using ih j h

theorem replicate_append_getElem {α : Type} (a : Nat) (d x : α)
    (ls : List α) :
    (List.replicate a d ++ x :: ls)[a]? = some x := by
  induction a with
  | zero => simp
  | succ n ih =>
    simpa only [List.replicate_succ, List.cons_append,
      List.getElem?_cons_succ] using ih

theorem replicate_append_set {α : Type} (a : Nat) (d x y : α)
    (ls : List α) :
    (List.replicate a d ++ x :: ls).set a y
      = List.replicate a d ++ y :: ls := by
  induction a with
  | zero => simp
  | succ n ih =>
    simpa only [List.replicate_succ, List.cons_append, List.set_cons_succ,
      List.cons.injEq, true_and] using ih

theorem replicate_succ_append {α : Type} (a : Nat) (d : α) (L : List α) :
    List.replicate (a + 1) d ++ L = List.replicate a d ++ d :: L := by
  induction a with
  | zero => rfl
  | succ n ih =>
    rw [List.replicate_succ, List.cons_append, ih, List.replicate_succ,
      List.cons_append]

theorem run_schedule_append (ttl_s : Nat) (now : Int) (key : String)
    (rb : Buffer) (l1 l2 : List Nat) (s : Sys) :
    run_schedule ttl_s now key rb (l1 ++ l2) s
      = run_schedule ttl_s now key rb l2
          (run_schedule ttl_s now key rb l1 s) := by
  simp [run_schedule, List.foldl_append]

theorem get_hit_fresh (ttl_s : Nat) (now : Int) (key : String)
    (rb : Buffer) (disk : StrMap DiskFile) (httl : 1 ≤ ttl_s) :
    get_cached_image ttl_s now key ⟨[(key, ⟨rb, now⟩)], disk⟩
      = (some (rb, Source.ram), ⟨[(key, ⟨rb, now⟩)], disk⟩, false) := by
  have h1 : (0 : Int) < ttl_ms ttl_s := by
    have h2 : (0 : Int) < (ttl_s : Int) * 1000 := by omega
    simpa [ttl_ms] using h2
  simp [get_cached_image, map_lookup, h1]

theorem run_pair_done (ttl_s : Nat) (now : Int) (key : String)
    (rb : Buffer) (C : CacheState) (n : Nat) (reqs : List RStatus)
    (i : Nat) (hreq : reqs[i]? = some RStatus.notStarted)
    (hhit : get_cached_image ttl_s now key C
      = (some (rb, Source.ram), C, false)) :
    run_schedule ttl_s now key rb [i, i] ⟨C, n, reqs⟩
      = ⟨C, n, reqs.set i (RStatus.done rb)⟩ := by
  have h2 : (reqs.set i (RStatus.done rb))[i]? = some (RStatus.done rb) :=
    getElem?_set_of_some reqs i _ _ hreq
  simp [run_schedule, req_step, hreq, hhit, h2]

theorem run_seq_tail (ttl_s : Nat) (now : Int) (key : String)
    (rb : Buffer) (C : CacheState)
    (hhit : get_cached_image ttl_s now key C
      = (some (rb, Source.ram), C, false)) :
    ∀ (c a n : Nat),
      run_schedule ttl_s now key rb
        ((List.range' a c).flatMap (fun i => [i, i]))
        ⟨C, n, List.replicate a (RStatus.done rb)
          ++ List.replicate c RStatus.notStarted⟩
      = ⟨C, n, List.replicate (a + c) (RStatus.done rb)⟩ := by
  intro c
  induction c with
  | zero =>
    intro a n
    simp [run_schedule]
  | succ m ih =>
    intro a n
    have hsched : (List.range' a (m + 1)).flatMap (fun i => [i, i])
        = [a, a] ++ (List.range' (a + 1) m).flatMap (fun i => [i, i]) := by
      simp [List.range'_succ]
    have hreq : (List.replicate a (RStatus.done rb)
        ++ List.replicate (m + 1) RStatus.notStarted)[a]?
        = some RStatus.notStarted := by
      rw [List.replicate_succ]
      exact replicate_append_getElem a _ _ _
    have hset2 : (List.replicate a (RStatus.done rb)
        ++ List.replicate (m + 1) RStatus.notStarted).set a
          (RStatus.done rb)
        = List.replicate (a + 1) (RStatus.done rb)
          ++ List.replicate m RStatus.notStarted := by
      rw [replicate_succ_append, List.replicate_succ]
      exact replicate_append_set a _ _ _ _
    rw [hsched, run_schedule_append,
      run_pair_done ttl_s now key rb C n _ a hreq hhit, hset2,
      ih (a + 1) n]
    have hn : a + 1 + m = a + (m + 1) := by omega
    rw [hn]

/-- C1 (amended): the handler has no in-flight registry, so concurrent
misses for the same key can each invoke the renderer (see the
counterexample); when the M requests for the same uncached key execute
sequentially — each running to completion before the next starts — the
renderer is invoked exactly once and all M callers receive the identical
bytes. -/
theorem C1_seq_renders_once (ttl_s : Nat) (now : Int) (key : String)
    (rb : Buffer) (M : Nat) (hM : 1 ≤ M) (httl : 1 ≤ ttl_s) :
    (run_schedule ttl_s now key rb (seq_schedule M) (init_sys M)).renders
      = 1
    ∧ (run_schedule ttl_s now key rb (seq_schedule M) (init_sys M)).reqs
        = List.replicate M (RStatus.done rb) := by
  obtain ⟨m, rfl⟩ : ∃ m, M = m + 1 :=
    ⟨M - 1, (Nat.succ_pred_eq_of_pos hM).symm⟩
  have hsched : seq_schedule (m + 1)
      = [0, 0] ++ (List.range' 1 m).flatMap (fun i => [i, i]) := by
    simp [seq_schedule, List.range_eq_range', List.range'_succ]
  have hs1 : req_step ttl_s now key rb (init_sys (m + 1)) 0
      = ⟨⟨[], []⟩, 0,
         RStatus.checkedMiss :: List.replicate m RStatus.notStarted⟩ := by
    simp [init_sys, req_step, List.replicate_succ, get_cached_image,
      map_lookup, disk_step, get_from_disk_cache]
  have hs2 : req_step ttl_s now key rb
      ⟨⟨[], []⟩, 0,
       RStatus.checkedMiss :: List.replicate m RStatus.notStarted⟩ 0
      = ⟨⟨[(key, ⟨rb, now⟩)], [(disk_file_name key, ⟨rb, now⟩)]⟩, 1,
         RStatus.done rb :: List.replicate m RStatus.notStarted⟩ := by
    simp [req_step, cache_image, save_to_disk_cache, map_set]
  have hfirst : run_schedule ttl_s now key rb [0, 0] (init_sys (m + 1))
      = ⟨⟨[(key, ⟨rb, now⟩)], [(disk_file_name key, ⟨rb, now⟩)]⟩, 1,
         RStatus.done rb :: List.replicate m RStatus.notStarted⟩ := by
    show req_step ttl_s now key rb
      (req_step ttl_s now key rb (init_sys (m + 1)) 0) 0 = _
    rw [hs1, hs2]
  have hhit : get_cached_image ttl_s now key
      ⟨[(key, ⟨rb, now⟩)], [(disk_file_name key, ⟨rb, now⟩)]⟩
      = (some (rb, Source.ram),
         ⟨[(key, ⟨rb, now⟩)], [(disk_file_name key, ⟨rb, now⟩)]⟩,
         false) :=
    get_hit_fresh ttl_s now key rb _ httl
  have htail := run_seq_tail ttl_s now key rb _ hhit m 1 1
  rw [hsched, run_schedule_append, hfirst]
  have hrepl : RStatus.done rb :: List.replicate m RStatus.notStarted
      = List.replicate 1 (RStatus.done rb)
        ++ List.replicate m RStatus.notStarted := rfl
  rw [hrepl, htail]
  refine ⟨rfl, ?_⟩
  have h1m : 1 + m = m + 1 := by omega
  rw [h1m]

/-- Witness for C1 with three sequential requests. -/
theorem C1_witness :
    (run_schedule 1 0 "kw" [4] (seq_schedule 3) (init_sys 3)).renders = 1
    ∧ (run_schedule 1 0 "kw" [4] (seq_schedule 3) (init_sys 3)).reqs
        = List.replicate 3 (RStatus.done [4]) :=
  C1_seq_renders_once 1 0 "kw" [4] 3 (by decide) (by decide)

/-- C1 counterexample: two concurrent requests for the same uncached key
whose cache checks interleave before either render completes invoke the
renderer twice, not once — there is no request coalescing. -/
theorem C1_counterexample :
    (run_schedule 1 0 "k" [9] [0, 1, 0, 1] (init_sys 2)).renders = 2
    ∧ (run_schedule 1 0 "k" [9] [0, 1, 0, 1] (init_sys 2)).reqs
        = [RStatus.done [9], RStatus.done [9]] :=
  ⟨rfl, rfl⟩

theorem filter_keep_all {α : Type} (p : α → Bool) (l : List α)
    (h : ∀ x ∈ l, p x = true) : l.filter p = l := by
  induction l with
  | nil => rfl
  | cons x t ih =>
    have hx := h x (List.mem_cons_self x t)
    simp [hx, ih (fun y hy => h y (List.mem_cons_of_mem x hy))]

theorem insert_by_ts_lt (p : String × RamCacheEntry)
    (l : List (String × RamCacheEntry))
    (h : ∀ q ∈ l, p.2.timestamp < q.2.timestamp) :
    insert_by_ts p l = p :: l := by
  cases l with
  | nil => rfl
  | cons q t => simp [insert_by_ts, h q (List.mem_cons_self q t)]

theorem sort_by_ts_sorted (l : List (String × RamCacheEntry))
    (h : l.Pairwise (fun p q => p.2.timestamp < q.2.timestamp)) :
    sort_by_ts l = l := by
  induction l with
  | nil => rfl
  | cons p t ih =>
    rw [sort_by_ts, ih (List.pairwise_cons.mp h).2,
      insert_by_ts_lt p t (List.pairwise_cons.mp h).1]

theorem map_delete_not_mem {α : Type} (m : StrMap α) (k : String)
    (h : ∀ p ∈ m, p.1 ≠ k) : map_delete m k = m := by
  induction m with
  | nil => rfl
  | cons p t ih =>
    have h1 : p.1 ≠ k := h p (List.mem_cons_self p t)
    obtain ⟨k2, v⟩ := p
    simp [map_delete, h1,
      ih (fun q hq => h q (List.mem_cons_of_mem _ hq))]

theorem foldl_delete_take (l : StrMap RamCacheEntry) :
    ∀ j : Nat, (l.map Prod.fst).Nodup →
      (l.take j).foldl (fun m p => map_delete m p.1) l = l.drop j := by
  induction l with
  | nil =>
    intro j h
    simp
  | cons x t ih =>
    intro j h
    cases j with
    | zero => simp
    | succ i =>
      have hx : x.1 ∉ t.map Prod.fst :=
        (List.nodup_cons.mp (by simpa using h)).1
      have ht : ∀ p ∈ t, p.1 ≠ x.1 := by
        intro p hp hpe
        exact hx (hpe ▸ List.mem_map_of_mem Prod.fst hp)
      have hdel : map_delete (x :: t) x.1 = t := by
        obtain ⟨k2, v⟩ := x
        simp [map_delete, map_delete_not_mem t k2 ht]
      calc ((x :: t).take (i + 1)).foldl (fun m p => map_delete m p.1)
            (x :: t)
          = (t.take i).foldl (fun m p => map_delete m p.1)
              (map_delete (x :: t) x.1) := by
            rw [List.take_succ_cons, List.foldl_cons]
        _ = (t.take i).foldl (fun m p => map_delete m p.1) t := by
            rw [hdel]
        _ = t.drop i := ih i (List.nodup_cons.mp (by simpa using h)).2
        _ = (x :: t).drop (i + 1) := by rw [List.drop_succ_cons]

/-- C3 (amended): cache_image itself never evicts (see the
counterexample), so the capacity bound is enforced only by the periodic
cleanup_cache sweep: on a tier of distinct unexpired keys stored in
order of strictly increasing timestamps, the sweep leaves exactly
min(size, N) entries by deleting the oldest-by-timestamp entries — with
size = N + k, exactly the k oldest are evicted. -/
theorem C3_cleanup_capacity (ttl_s maxSize : Nat) (now : Int)
    (ram : StrMap RamCacheEntry)
    (hsort : ram.Pairwise (fun p q => p.2.timestamp < q.2.timestamp))
    (hnodup : (ram.map Prod.fst).Nodup)
    (hfresh : ∀ p ∈ ram, ¬(now - p.2.timestamp > ttl_ms ttl_s)) :
    cleanup_cache ttl_s maxSize now ram
      = ram.drop (ram.length - maxSize)
    ∧ (cleanup_cache ttl_s maxSize now ram).length
        = min ram.length maxSize := by
  have hfilter : ram.filter (keep_entry ttl_s now) = ram := by
    apply filter_keep_all
    intro x hx
    simp [keep_entry, hfresh x hx]
  have hmain : cleanup_cache ttl_s maxSize now ram
      = ram.drop (ram.length - maxSize) := by
    simp only [cleanup_cache, hfilter]
    by_cases hcap : maxSize < ram.length
    · rw [if_pos hcap, sort_by_ts_sorted ram hsort,
        foldl_delete_take ram _ hnodup]
    · rw [if_neg hcap]
      have h0 : ram.length - maxSize = 0 := by omega
      rw [h0, List.drop_zero]
  refine ⟨hmain, ?_⟩
  rw [hmain, List.length_drop]
  omega

/-- Witness for C3: with capacity 1, the sweep over two unexpired
entries keeps only the younger one. -/
theorem C3_witness :
    cleanup_cache 1 1 500 [("a", ⟨[1], 0⟩), ("b", ⟨[2], 1⟩)]
      = [("b", ⟨[2], 1⟩)] := by
  have h := C3_cleanup_capacity 1 1 500
    [("a", ⟨[1], 0⟩), ("b", ⟨[2], 1⟩)] (by decide) (by decide) (by decide)
  simpa using h.1

/-- C3 counterexample: inserting two distinct keys through cache_image
leaves two entries in the memory tier — insertion applies no eviction,
so with capacity 1 the tier exceeds its bound until the sweep runs. -/
theorem C3_counterexample :
    ((cache_image 1 "k2" [2] false
        (cache_image 0 "k1" [1] false ⟨[], []⟩).1).1).ram.length = 2
    ∧ ¬(((cache_image 1 "k2" [2] false
        (cache_image 0 "k1" [1] false ⟨[], []⟩).1).1).ram.length ≤ 1) :=
  ⟨by decide, by decide⟩

/-- C4 (amended): the cache key is a pure, deterministic function of the
four effective parameters; since the parameters are named fields, the
order in which a request supplies them is immaterial. (Injectivity, the
other half of the claim, fails — see the counterexample.) -/
theorem C4_key_determined_by_fields (p q : og_params)
    (h1 : p.title = q.title) (h2 : p.author = q.author)
    (h3 : p.website = q.website) (h4 : p.theme = q.theme) :
    cache_key p = cache_key q := by
  simp [cache_key, h1, h2, h3, h4]

/-- Witness for C4 at concrete parameters. -/
theorem C4_witness :
    cache_key ⟨"a", "b", "c", "light"⟩
      = cache_key ⟨"a", "b", "c", "light"⟩ :=
  C4_key_determined_by_fields _ _ rfl rfl rfl rfl

/-- C4 counterexample: two parameter mappings that differ in the title
value (and the author value) derive the same cache key, because the
values are joined with dashes without escaping. -/
theorem C4_counterexample :
    (⟨"a-b", "c", "w", "light"⟩ : og_params) ≠ ⟨"a", "b-c", "w", "light"⟩
    ∧ cache_key ⟨"a-b", "c", "w", "light"⟩
        = cache_key ⟨"a", "b-c", "w", "light"⟩ :=
  ⟨by decide, by decide⟩

/-- C10 (confirmed): the disk-tier file-name transform is not injective.
The distinct keys "a b" and "a.b" differ only in a character outside
[A-Za-z0-9_-], map to the same file name, and a disk write under the
first key followed by a disk read under the second returns the first
key's bytes. -/
theorem C10_filename_collision :
    ("a b" : String) ≠ "a.b"
    ∧ disk_file_name "a b" = disk_file_name "a.b"
    ∧ (get_from_disk_cache 1 0 "a.b"
        (save_to_disk_cache 0 "a b" [7] false []).1).1 = some [7] :=
  ⟨by decide, by decide, by decide⟩

/-- C9 (confirmed): cache invalidation is idempotent — on a key absent
from both tiers it is a no-op reporting nothing found (not an error),
and invalidating twice in a row leaves the same state as invalidating
once. -/
theorem C9_invalidate_idempotent (key : String) (st : CacheState) :
    (map_lookup st.ram key = none →
      map_lookup st.disk (disk_file_name key) = none →
      invalidate key st = (st, false, false))
    ∧ (invalidate key (invalidate key st).1).1 = (invalidate key st).1 := by
  constructor
  · intro h1 h2
    simp [invalidate, h1, h2, map_delete_eq_self _ _ h1,
      map_delete_eq_self _ _ h2]
  · simp [invalidate, map_delete_idem]

/-- Witness for C9 on an empty cache. -/
theorem C9_witness : invalidate "k" ⟨[], []⟩ = (⟨[], []⟩, false, false) :=
  (C9_invalidate_idempotent "k" ⟨[], []⟩).1 rfl rfl

/-- C2 (amended): freshness of the hybrid lookup. A RAM entry is served
only while its age is strictly below the TTL, a disk entry only while
its age is at most the TTL (so age exactly TTL is still served from
disk — see the counterexample); bytes cached at time t are served before
t + TTL and are a miss after t + TTL; an expired entry found in a tier
during the lookup is deleted by that lookup. -/
theorem C2_ttl_amended (ttl_s : Nat) (now t : Int) (key : String)
    (b : Buffer) (st : CacheState) :
    (∀ b2 st2 d, get_cached_image ttl_s now key st
        = (some (b2, Source.ram), st2, d) →
      ∃ e, map_lookup st.ram key = some e ∧ e.buffer = b2
        ∧ now - e.timestamp < ttl_ms ttl_s)
    ∧ (∀ b2 st2 d, get_cached_image ttl_s now key st
        = (some (b2, Source.disk), st2, d) →
      ∃ f, map_lookup st.disk (disk_file_name key) = some f
        ∧ f.buffer = b2 ∧ ¬(now - f.mtime > ttl_ms ttl_s))
    ∧ (now - t < ttl_ms ttl_s →
      (get_cached_image ttl_s now key (cache_image t key b false st).1).1
        = some (b, Source.ram))
    ∧ (now - t > ttl_ms ttl_s →
      (get_cached_image ttl_s now key (cache_image t key b false st).1).1
        = none)
    ∧ (∀ e, map_lookup st.ram key = some e →
      ¬(now - e.timestamp < ttl_ms ttl_s) →
      map_lookup st.disk (disk_file_name key) = none →
      map_lookup (get_cached_image ttl_s now key st).2.1.ram key = none)
    ∧ (∀ f, map_lookup st.ram key = none →
      map_lookup st.disk (disk_file_name key) = some f →
      now - f.mtime > ttl_ms ttl_s →
      map_lookup (get_cached_image ttl_s now key st).2.1.disk
        (disk_file_name key) = none) := by
  refine ⟨?_, ?_, ?_, ?_, ?_, ?_⟩
  · intro b2 st2 d h
    rcases hl : map_lookup st.ram key with _ | e
    · simp only [get_cached_image, hl] at h
      exact absurd h (disk_step_no_ram _ _ _ _ _ _ _ _)
    · simp only [get_cached_image, hl] at h
      by_cases hage : now - e.timestamp < ttl_ms ttl_s
      · rw [if_pos hage] at h
        refine ⟨e, rfl, ?_, hage⟩
        have h1 := congrArg (fun x => x.1) h
        simpa using h1
      · rw [if_neg hage] at h
        exact absurd h (disk_step_no_ram _ _ _ _ _ _ _ _)
  · intro b2 st2 d h
    rcases hl : map_lookup st.ram key with _ | e
    · simp only [get_cached_image, hl] at h
      exact disk_step_disk_hit _ _ _ _ _ _ _ _ h
    · simp only [get_cached_image, hl] at h
      by_cases hage : now - e.timestamp < ttl_ms ttl_s
      · rw [if_pos hage] at h
        have h1 := congrArg (fun x => x.1) h
        simp at h1
      · rw [if_neg hage] at h
        exact disk_step_disk_hit _ _ _ _ _ _ _ _ h
  · intro hfresh
    have hset : map_lookup (cache_image t key b false st).1.ram key
        = some ⟨b, t⟩ := by
      simp [cache_image, map_lookup_set_eq]
    simp [get_cached_image, hset, hfresh]
  · intro hexp
    have hset : map_lookup (cache_image t key b false st).1.ram key
        = some ⟨b, t⟩ := by
      simp [cache_image, map_lookup_set_eq]
    have hsetd : map_lookup (cache_image t key b false st).1.disk
        (disk_file_name key) = some ⟨b, t⟩ := by
      simp [cache_image, save_to_disk_cache, map_lookup_set_eq]
    have hnotlt : ¬(now - t < ttl_ms ttl_s) := lt_asymm hexp
    simp [get_cached_image, hset, hnotlt, disk_step, get_from_disk_cache,
      hsetd, hexp]
  · intro e hl hage hdisk
    simp [get_cached_image, hl, hage, disk_step, get_from_disk_cache,
      hdisk, map_lookup_delete]
  · intro f hl hdisk hage
    simp [get_cached_image, hl, disk_step, get_from_disk_cache, hdisk,
      hage, map_lookup_delete]

/-- Witness for C2: bytes cached at time 0 are served from RAM at 500ms
with a 1-second TTL. -/
theorem C2_witness :
    (get_cached_image 1 500 "k" (cache_image 0 "k" [3] false ⟨[], []⟩).1).1
      = some ([3], Source.ram) :=
  (C2_ttl_amended 1 500 0 "k" [3] ⟨[], []⟩).2.2.1 (by decide)

/-- C2 counterexample: with a 1-second TTL, a disk file written at time
0 is still served at time 1000ms, when its age equals the TTL — an entry
with age at least TTL is returned, contradicting the claim. -/
theorem C2_counterexample :
    (get_cached_image 1 1000 "k" ⟨[], [("k.png", ⟨[1], 0⟩)]⟩).1
      = some ([1], Source.disk)
    ∧ (1000 : Int) - 0 ≥ ttl_ms 1 :=
  ⟨by decide, by decide⟩

/-- C5 (confirmed): cache_image makes the bytes synchronously available
from the memory tier for a lookup before TTL expiry, and an injected
disk-write failure is only logged: the memory-tier update is intact, the
disk tier is unchanged, and no error propagates (the operation is
total). -/
theorem C5_put_memory_authoritative (ttl_s : Nat) (t now : Int)
    (key : String) (b : Buffer) (fail : Bool) (st : CacheState)
    (h : now - t < ttl_ms ttl_s) :
    (get_cached_image ttl_s now key (cache_image t key b fail st).1).1
      = some (b, Source.ram)
    ∧ (cache_image t key b fail st).1.ram = map_set st.ram key ⟨b, t⟩
    ∧ (fail = true → (cache_image t key b fail st).1.disk = st.disk
        ∧ (cache_image t key b fail st).2 = true) := by
  refine ⟨?_, ?_, ?_⟩
  · have hset : map_lookup (cache_image t key b fail st).1.ram key
        = some ⟨b, t⟩ := by
      simp [cache_image, map_lookup_set_eq]
    simp [get_cached_image, hset, h]
  · simp [cache_image]
  · intro hf
    subst hf
    simp [cache_image, save_to_disk_cache]

/-- Witness for C5 with a failing disk write. -/
theorem C5_witness :
    (get_cached_image 1 500 "k" (cache_image 0 "k" [3] true ⟨[], []⟩).1).1
      = some ([3], Source.ram) :=
  (C5_put_memory_authoritative 1 0 500 "k" [3] true ⟨[], []⟩ (by decide)).1

/-- C6 (confirmed): a key present only on disk and unexpired is served
with tier disk and promoted into the memory tier with its timestamp
reset to the time of the promotion; the next lookup before expiry of the
promoted entry is a RAM hit performing no disk access. -/
theorem C6_promotion (ttl_s : Nat) (now now2 : Int) (key : String)
    (b : Buffer) (m : Int) (st : CacheState)
    (hram : map_lookup st.ram key = none)
    (hdisk : map_lookup st.disk (disk_file_name key) = some ⟨b, m⟩)
    (hfresh : ¬(now - m > ttl_ms ttl_s))
    (hfresh2 : now2 - now < ttl_ms ttl_s) :
    get_cached_image ttl_s now key st
      = (some (b, Source.disk),
         ⟨map_set st.ram key ⟨b, now⟩, st.disk⟩, true)
    ∧ (get_cached_image ttl_s now2 key
        ⟨map_set st.ram key ⟨b, now⟩, st.disk⟩).1 = some (b, Source.ram)
    ∧ (get_cached_image ttl_s now2 key
        ⟨map_set st.ram key ⟨b, now⟩, st.disk⟩).2.2 = false := by
  have h2 : map_lookup (map_set st.ram key ⟨b, now⟩) key = some ⟨b, now⟩ :=
    map_lookup_set_eq _ _ _
  refine ⟨?_, ?_, ?_⟩
  · simp [get_cached_image, hram, disk_step, get_from_disk_cache, hdisk,
      hfresh]
  · simp [get_cached_image, h2, hfresh2]
  · simp [get_cached_image, h2, hfresh2]

/-- Witness for C6 at a concrete disk-only state. -/
theorem C6_witness :
    get_cached_image 1 0 "k" ⟨[], [("k.png", ⟨[5], 0⟩)]⟩
      = (some ([5], Source.disk),
         ⟨[("k", ⟨[5], 0⟩)], [("k.png", ⟨[5], 0⟩)]⟩, true) :=
  (C6_promotion 1 0 1 "k" [5] 0 ⟨[], [("k.png", ⟨[5], 0⟩)]⟩
    rfl (by decide) (by decide) (by decide)).1

/-- C7 (confirmed): a request whose render fails never populates the
cache — on a key absent from both tiers the handler leaves the state
unchanged and returns the 500 server error, whose message is included
only when NODE_ENV is development (a non-production context). -/
theorem C7_failed_render_no_cache (env : String) (ttl_s : Nat) (now : Int)
    (key : String) (e : String) (rest : List RenderOutcome)
    (disk_fail : Bool) (st : CacheState)
    (hram : map_lookup st.ram key = none)
    (hdisk : map_lookup st.disk (disk_file_name key) = none) :
    og_handler env ttl_s now key (Except.error e :: rest) disk_fail st
      = (OgResponse.server_error
          (if env = "development" then some e else none), st, 1)
    ∧ (∀ msg, (if env = "development" then some e else none) = some msg →
        env = "development") := by
  constructor
  · have hget : get_cached_image ttl_s now key st = (none, st, true) := by
      simp [get_cached_image, hram, disk_step, get_from_disk_cache, hdisk]
    simp [og_handler, hget, render_once]
  · intro msg hmsg
    by_cases henv : env = "development"
    · exact henv
    · rw [if_neg henv] at hmsg
      cases hmsg

/-- Witness for C7 in production on an empty cache. -/
theorem C7_witness :
    og_handler "production" 1 0 "k7" [Except.error "err7"] false ⟨[], []⟩
      = (OgResponse.server_error none, ⟨[], []⟩, 1) :=
  (C7_failed_render_no_cache "production" 1 0 "k7" "err7" [] false
    ⟨[], []⟩ rfl rfl).1

/-- C8 (amended): the handler performs no retry — on a cache miss whose
render attempt fails, the 500 error is returned after exactly one
renderer invocation, whatever the outcomes of further attempts would
have been. -/
theorem C8_no_retry (env : String) (ttl_s : Nat) (now : Int)
    (key : String) (e : String) (rest : List RenderOutcome)
    (disk_fail : Bool) (st : CacheState)
    (hmiss : (get_cached_image ttl_s now key st).1 = none) :
    og_handler env ttl_s now key (Except.error e :: rest) disk_fail st
      = (OgResponse.server_error
          (if env = "development" then some e else none),
         (get_cached_image ttl_s now key st).2.1, 1) := by
  simp [og_handler, hmiss, render_once]

/-- Witness for C8 on an empty cache. -/
theorem C8_witness :
    og_handler "production" 1 0 "k8" [Except.error "boom"] false ⟨[], []⟩
      = (OgResponse.server_error none, ⟨[], []⟩, 1) :=
  C8_no_retry "production" 1 0 "k8" "boom" [] false ⟨[], []⟩ rfl

/-- C8 counterexample: with attempt outcomes [failure, success], the
handler delivers the failure after consuming exactly one attempt — a
retried request would have succeeded on the second attempt, so no
bounded retry policy is applied. -/
theorem C8_counterexample :
    og_handler "production" 1 0 "k" [Except.error "boom", Except.ok [1]]
      false ⟨[], []⟩
      = (OgResponse.server_error none, ⟨[], []⟩, 1)
    ∧ ([Except.error "boom", Except.ok ([1] : Buffer)])[1]?
        = some (Except.ok [1]) := by
  refine ⟨?_, rfl⟩
  simp [og_handler, get_cached_image, map_lookup, disk_step,
    get_from_disk_cache, render_once]

end OgServer
